import Mathlib

/-!
Verification of the commit-review hook of the ai-code-review repository.

The development shallowly embeds the decision logic of the hook script
(the file that runs on the prepare-commit-msg event): the gitignore-style
pattern compiler patternToRegex, the rule evaluator shouldIgnoreFile, the
diff filter filterDiff, the retry wrapper callWithRetry, the provider
resolver getAIConfig, and the orchestration runAIReview together with the
top-level commit-source gate.

JavaScript strings are modelled as Lean String values; splitting on a
newline and joining with a newline are modelled by splitLines and
joinLines on the underlying character list, with the same semantics as
the JavaScript split and join (splitting the empty string yields one
empty piece).  JavaScript regular expressions only ever arise here from
patternToRegex, whose outputs use a small fixed fragment of regex
syntax; regexTest interprets exactly that fragment (parseRegex builds a
token list, matchToks is a backtracking matcher, test tries every start
position, caret matching only at position zero as in a non-multiline
JavaScript regex).  Effects (git diff, the build command, the remote
chat call per attempt, JSON parsing of the response) are supplied by a
ReviewWorld record of oracles; exceptions are Except values.
-/

/-- Whitespace as trimmed by the JavaScript trim used in the hook
(the diffs and reasons involved only use ASCII whitespace). -/
def isJsSpace (c : Char) : Bool :=
  c = ' ' || c = '\t' || c = '\n' || c = '\r' || c = '\x0b' || c = '\x0c'

/-- Model of the JavaScript String.prototype.trim on the character list. -/
def jsTrim (s : String) : String :=
  String.mk (((s.data.dropWhile isJsSpace).reverse.dropWhile isJsSpace).reverse)

/-- Model of the JavaScript or-default idiom value || default for string
configuration values: the empty string is falsy and selects the default. -/
def jsOrString (v : Option String) (d : String) : String :=
  match v with
  | some s => if s = "" then d else s
  | none => d

/-- Model of value1 || value2 where both sides are possibly-undefined
strings (used for the API-key lookup chain). -/
def jsOrOpt (a b : Option String) : Option String :=
  match a with
  | some s => if s = "" then b else some s
  | none => b

/-- Truthiness of a possibly-undefined string, as in if (!aiConfig.apiKey). -/
def jsTruthyStr : Option String → Bool
  | some s => !(s == "")
  | none => false

/-- Model of the JavaScript toLowerCase as a character-wise map with
the ASCII mapping.  The JavaScript toLowerCase applies the full Unicode
simple lowercase mapping (so for instance the Kelvin sign lowers to the
letter k), which this model does not reproduce; it agrees with the
JavaScript function exactly on ASCII strings, and every statement below
that quantifies over arbitrary provider names therefore carries an
isAsciiString hypothesis. -/
def jsToLower (s : String) : String :=
  String.mk (s.data.map Char.toLower)

/-- ASCII-only strings: the fragment on which jsToLower coincides with
the JavaScript toLowerCase. -/
def isAsciiString (s : String) : Bool :=
  s.data.all fun c => c.toNat < 128

/-- First line and remaining lines of a character list split at every
newline; auxiliary form that never produces an empty list of lines. -/
def splitLinesCore : List Char → List Char × List (List Char)
  | [] => ([], [])
  | c :: rest =>
    let p := splitLinesCore rest
    if c = '\n' then ([], p.1 :: p.2) else (c :: p.1, p.2)

/-- Model of the JavaScript text.split on a newline: the empty string
yields one empty line, a trailing newline yields a trailing empty line. -/
def splitLines (s : List Char) : List (List Char) :=
  (splitLinesCore s).1 :: (splitLinesCore s).2

/-- Model of the JavaScript lines.join with a newline separator. -/
def joinLines : List (List Char) → List Char
  | [] => []
  | [l] => l
  | l :: l' :: ls => l ++ '\n' :: joinLines (l' :: ls)

/-- Characters escaped by the replace call of patternToRegex; the class
is [.+^$\x7b\x7d()|[\]\\]: note that the forward slash is NOT a member. -/
def isRegexSpecial (c : Char) : Bool :=
  c = '.' || c = '+' || c = '^' || c = '$' || c = '\x7b' || c = '\x7d' ||
  c = '(' || c = ')' || c = '|' || c = '[' || c = ']' || c = '\\'

/-- The escaping replace of patternToRegex: a backslash is put before
every regex metacharacter except the star and the question mark. -/
def escapeRegex (s : List Char) : List Char :=
  s.foldr (fun c acc => if isRegexSpecial c then '\\' :: c :: acc else c :: acc) []

/-- Global leftmost non-overlapping replacement of one literal substring
by another, as performed by the replace chain of patternToRegex; the
fuel argument bounds the recursion by the input length (each step
consumes at least one input character, so the initial fuel s.length is
always sufficient). -/
def replaceAllF (sep repl : List Char) : Nat → List Char → List Char
  | _, [] => []
  | 0, s => s
  | fuel + 1, c :: rest =>
    if sep ≠ [] ∧ (c :: rest).take sep.length = sep then
      repl ++ replaceAllF sep repl fuel ((c :: rest).drop sep.length)
    else
      c :: replaceAllF sep repl fuel rest

/-- Replace every occurrence of sep by repl in s. -/
def replaceAll (sep repl s : List Char) : List Char :=
  replaceAllF sep repl s.length s

/-- The regex source string built by the non-negated branch of
patternToRegex, reproducing its replace chain and string surgery:
escape metacharacters (not the slash), swap the double star through the
DOUBLE_STAR placeholder, turn the star into a no-slash run and the
question mark into a single no-slash character, then anchor: a leading
slash prepends a caret and drops TWO characters (the code assumes the
slash was escaped to two characters, but escaping never touched it), a
trailing slash drops the last TWO characters and appends the
slash-or-end group (same mistaken assumption), otherwise the
start-or-slash group is prepended and the end-or-slash group appended. -/
def buildRegexStr (p : List Char) : List Char :=
  let r := escapeRegex p
  let r := replaceAll "**".data "\x7b\x7bDOUBLE_STAR\x7d\x7d".data r
  let r := replaceAll "*".data "[^/]*".data r
  let r := replaceAll "?".data "[^/]".data r
  let r := replaceAll "\x7b\x7bDOUBLE_STAR\x7d\x7d".data ".*".data r
  let r := if p.take 1 = ['/'] then '^' :: r.drop 2 else "(^|/)".data ++ r
  let r := if p.getLast? = some '/' then r.take (r.length - 2) ++ "(/|$)".data
           else r ++ "($|/)".data
  r

/-- A compiled ignore rule: the regex source string and the negation flag. -/
structure CompiledPattern where
  regex : String
  negated : Bool
deriving DecidableEq

/-- Model of patternToRegex: strip one leading exclamation mark and
record negation recursively (only the regex of the recursive result is
kept, as in the source), otherwise build the regex string. -/
def patternToRegexAux : List Char → CompiledPattern
  | '!' :: rest => { regex := (patternToRegexAux rest).regex, negated := true }
  | l => { regex := String.mk (buildRegexStr l), negated := false }

/-- patternToRegex of the hook script, on a String pattern. -/
def patternToRegex (pattern : String) : CompiledPattern :=
  patternToRegexAux pattern.data

/-- Tokens of the regex fragment that patternToRegex can emit. -/
inductive RTok where
  | lit (c : Char)
  | dot
  | notSlash
  | starNotSlash
  | starDot
  | caret
  | dollar
  | grpStartSlash
  | grpSlashEnd
  | grpEndSlash
deriving DecidableEq

/-- Tokenizer of the emitted regex fragment.  A backslash makes the next
character literal; the three two-alternative groups, the no-slash class
with or without a star, the dot with or without a star, the caret and
the dollar are recognized; any remaining metacharacter means the string
left this fragment (possible only for corrupted regexes produced by the
off-by-two surgery, where the JavaScript engine may throw), and the
tokenizer answers none. -/
def parseRegex : List Char → Option (List RTok)
  | [] => some []
  | '\\' :: c :: rest => (parseRegex rest).map fun ts => RTok.lit c :: ts
  | '(' :: '^' :: '|' :: '/' :: ')' :: rest =>
    (parseRegex rest).map fun ts => RTok.grpStartSlash :: ts
  | '(' :: '/' :: '|' :: '$' :: ')' :: rest =>
    (parseRegex rest).map fun ts => RTok.grpSlashEnd :: ts
  | '(' :: '$' :: '|' :: '/' :: ')' :: rest =>
    (parseRegex rest).map fun ts => RTok.grpEndSlash :: ts
  | '[' :: '^' :: '/' :: ']' :: '*' :: rest =>
    (parseRegex rest).map fun ts => RTok.starNotSlash :: ts
  | '[' :: '^' :: '/' :: ']' :: rest =>
    (parseRegex rest).map fun ts => RTok.notSlash :: ts
  | '.' :: '*' :: rest => (parseRegex rest).map fun ts => RTok.starDot :: ts
  | '.' :: rest => (parseRegex rest).map fun ts => RTok.dot :: ts
  | '^' :: rest => (parseRegex rest).map fun ts => RTok.caret :: ts
  | '$' :: rest => (parseRegex rest).map fun ts => RTok.dollar :: ts
  | c :: rest =>
    if c = '(' || c = ')' || c = '|' || c = '[' || c = ']' || c = '*' ||
       c = '+' || c = '?' || c = '\\' || c = '\x7b' || c = '\x7d' then none
    else (parseRegex rest).map fun ts => RTok.lit c :: ts

/-- Backtracking matcher for the token list against a character list at
one start position; the boolean argument records whether the current
position is the start of the subject string (the caret matches only
there, as in a non-multiline JavaScript regex; the dollar matches only
at the end; the dot and the starred dot do not cross a newline).  The
fuel strictly exceeds tokens plus characters at every call, and every
recursive call lowers that sum, so the zero-fuel case is unreachable
from matchToks. -/
def matchToksF : Nat → List RTok → List Char → Bool → Bool
  | 0, _, _, _ => false
  | _ + 1, [], _, _ => true
  | fuel + 1, RTok.lit c :: ts, xs, _ =>
    match xs with
    | x :: xs' => x = c && matchToksF fuel ts xs' false
    | [] => false
  | fuel + 1, RTok.dot :: ts, xs, _ =>
    match xs with
    | x :: xs' => x ≠ '\n' && matchToksF fuel ts xs' false
    | [] => false
  | fuel + 1, RTok.notSlash :: ts, xs, _ =>
    match xs with
    | x :: xs' => x ≠ '/' && matchToksF fuel ts xs' false
    | [] => false
  | fuel + 1, RTok.starNotSlash :: ts, xs, atStart =>
    matchToksF fuel ts xs atStart ||
    (match xs with
     | x :: xs' => x ≠ '/' && matchToksF fuel (RTok.starNotSlash :: ts) xs' false
     | [] => false)
  | fuel + 1, RTok.starDot :: ts, xs, atStart =>
    matchToksF fuel ts xs atStart ||
    (match xs with
     | x :: xs' => x ≠ '\n' && matchToksF fuel (RTok.starDot :: ts) xs' false
     | [] => false)
  | fuel + 1, RTok.caret :: ts, xs, atStart => atStart && matchToksF fuel ts xs atStart
  | fuel + 1, RTok.dollar :: ts, xs, atStart => xs.isEmpty && matchToksF fuel ts xs atStart
  | fuel + 1, RTok.grpStartSlash :: ts, xs, atStart =>
    (atStart && matchToksF fuel ts xs atStart) ||
    (match xs with
     | '/' :: xs' => matchToksF fuel ts xs' false
     | _ => false)
  | fuel + 1, RTok.grpSlashEnd :: ts, xs, atStart =>
    (match xs with
     | '/' :: xs' => matchToksF fuel ts xs' false
     | _ => false) ||
    (xs.isEmpty && matchToksF fuel ts xs atStart)
  | fuel + 1, RTok.grpEndSlash :: ts, xs, atStart =>
    (xs.isEmpty && matchToksF fuel ts xs atStart) ||
    (match xs with
     | '/' :: xs' => matchToksF fuel ts xs' false
     | _ => false)

/-- Match the token list at one position with sufficient fuel. -/
def matchToks (ts : List RTok) (xs : List Char) (atStart : Bool) : Bool :=
  matchToksF (ts.length + xs.length + 1) ts xs atStart

/-- Unanchored search, as performed by the test method of a JavaScript
regex: try the match at every start position of the subject. -/
def searchFrom (ts : List RTok) : List Char → Bool → Bool
  | [], atStart => matchToks ts [] atStart
  | x :: xs', atStart => matchToks ts (x :: xs') atStart || searchFrom ts xs' false

/-- regex.test(subject) for the emitted fragment; an untokenizable regex
string (which the JavaScript engine may reject as a syntax error) tests
false here, a case no claim exercises. -/
def regexTest (r : String) (s : String) : Bool :=
  match parseRegex r.data with
  | some ts => searchFrom ts s.data true
  | none => false

/-- shouldIgnoreFile of the hook script: fold over the patterns in rule
order; every matching rule overwrites the ignored flag with the
complement of its negation flag (last match wins). -/
def shouldIgnoreFile (filePath : String) (patterns : List String) : Bool :=
  patterns.foldl
    (fun ignored pattern =>
      let c := patternToRegex pattern
      if regexTest c.regex filePath then !c.negated else ignored)
    false

/-- Restatement of the rule-evaluation contract in the words of the
spec, for comparison with shouldIgnoreFile: the ignored status is the
complement of the negation flag of the last rule whose matcher accepts
the path, and false when no rule matches. -/
def specLastMatchWins (filePath : String) (patterns : List String) : Bool :=
  match (patterns.filter fun p => regexTest (patternToRegex p).regex filePath).getLast? with
  | some p => !(patternToRegex p).negated
  | none => false

/-- Match of one line against the file-header regex of filterDiff,
which is anchored at both ends, with two greedy one-or-more groups of
non-newline characters around the literal space-b-slash; returns the
second group (the new-side path).  Greediness of the first group means
the split uses the last viable occurrence of the separator. -/
def diffHeaderPath (line : List Char) : Option (List Char) :=
  if line.take 13 = "diff --git a/".data ∧ '\n' ∉ line then
    let rest := line.drop 13
    match ((List.range rest.length).filter fun i =>
        decide (1 ≤ i) && ((rest.drop i).take 3 == [' ', 'b', '/']) &&
        decide (i + 3 < rest.length)).getLast? with
    | some i => some (rest.drop (i + 3))
    | none => none
  else none

/-- The line loop of filterDiff: a header line re-evaluates the skip
flag from its extracted path (the header itself is kept only when not
skipped); any other line is kept exactly when the current segment is
not skipped.  Before the first header the flag is false. -/
def filterDiffGo (patterns : List String) : Bool → List (List Char) → List (List Char)
  | _, [] => []
  | skip, line :: rest =>
    match diffHeaderPath line with
    | some p =>
      if shouldIgnoreFile (String.mk p) patterns then filterDiffGo patterns true rest
      else line :: filterDiffGo patterns false rest
    | none =>
      if skip then filterDiffGo patterns skip rest
      else line :: filterDiffGo patterns skip rest

/-- filterDiff of the hook script: the empty rule set returns the diff
unchanged; otherwise split into lines, run the segment filter, and join
the kept lines with newlines. -/
def filterDiff (diff : String) (ignorePatterns : List String) : String :=
  if ignorePatterns.length = 0 then diff
  else String.mk (joinLines (filterDiffGo ignorePatterns false (splitLines diff.data)))

/-- Error object thrown by an attempt of the remote call: an optional
HTTP status (present on API errors such as 401, 403, 429), an optional
system code (such as ECONNREFUSED on transport errors), and a message. -/
structure JsError where
  status : Option Nat := none
  code : Option String := none
  errMessage : String := ""
deriving DecidableEq

/-- The retry loop of callWithRetry.  The fuel argument is the number of
loop iterations still allowed (retries plus one minus attempt), making
the for-loop recursion structural; zero fuel is the loop exit, which
throws the last stored error (none models the undefined lastError of a
zero-iteration loop).  Each iteration invokes the operation once: a 401
or 403 status rethrows at once; a 429 status always sleeps for
delay times attempt times two and continues; any other error sleeps for
delay times attempt only when further attempts remain, then continues.
The result carries the invocation count and the list of waits. -/
def callWithRetryAux {α : Type} (fn : Nat → Except JsError α) (retries delay : Nat) :
    Nat → Nat → Option JsError → Nat → List Nat →
    Except (Option JsError) α × Nat × List Nat
  | 0, _, lastError, calls, waits => (Except.error lastError, calls, waits)
  | fuel + 1, attempt, _, calls, waits =>
    match fn attempt with
    | Except.ok v => (Except.ok v, calls + 1, waits)
    | Except.error e =>
      if e.status = some 401 ∨ e.status = some 403 then
        (Except.error (some e), calls + 1, waits)
      else if e.status = some 429 then
        callWithRetryAux fn retries delay fuel (attempt + 1) (some e) (calls + 1)
          (waits ++ [delay * attempt * 2])
      else if attempt < retries then
        callWithRetryAux fn retries delay fuel (attempt + 1) (some e) (calls + 1)
          (waits ++ [delay * attempt])
      else
        callWithRetryAux fn retries delay fuel (attempt + 1) (some e) (calls + 1) waits

/-- callWithRetry of the hook script: run the attempt loop from attempt
one with a budget of retries iterations. -/
def callWithRetry {α : Type} (fn : Nat → Except JsError α) (retries delay : Nat) :
    Except (Option JsError) α × Nat × List Nat :=
  callWithRetryAux fn retries delay retries 1 none 0 []

/-- One provider preset of the AI_PROVIDERS registry. -/
structure ProviderPreset where
  baseURL : String
  defaultModel : String
  envKey : String
deriving DecidableEq

/-- The openai preset. -/
def openaiPreset : ProviderPreset :=
  { baseURL := "https://api.openai.com/v1", defaultModel := "gpt-4o-mini",
    envKey := "OPENAI_API_KEY" }

/-- The deepseek preset. -/
def deepseekPreset : ProviderPreset :=
  { baseURL := "https://api.deepseek.com", defaultModel := "deepseek-chat",
    envKey := "DEEPSEEK_API_KEY" }

/-- The AI_PROVIDERS registry of the hook script, as a keyed list. -/
def AI_PROVIDERS : List (String × ProviderPreset) :=
  [("openai", openaiPreset), ("deepseek", deepseekPreset)]

/-- Property names that bracket access on a plain object literal can
reach beyond its own keys: the members of Object.prototype, found on
the prototype chain (the last entry is the annex-B accessor). -/
def objectProtoProps : List String :=
  ["constructor", "hasOwnProperty", "isPrototypeOf", "propertyIsEnumerable",
   "toLocaleString", "toString", "valueOf", "__defineGetter__",
   "__defineSetter__", "__lookupGetter__", "__lookupSetter__", "__proto__"]

/-- Result of the JavaScript bracket access AI_PROVIDERS[name]: one of
the two own presets, an inherited Object.prototype member (a truthy
function or object that has none of the fields envKey, baseURL,
defaultModel), or undefined. -/
inductive ProvidersLookup where
  | preset (p : ProviderPreset)
  | protoMember
  | undef
deriving DecidableEq

/-- AI_PROVIDERS[name] with JavaScript object semantics: own properties
first, then the prototype chain, else undefined. -/
def providersIndex (name : String) : ProvidersLookup :=
  match AI_PROVIDERS.lookup name with
  | some p => ProvidersLookup.preset p
  | none =>
    if name ∈ objectProtoProps then ProvidersLookup.protoMember
    else ProvidersLookup.undef

/-- AI_PROVIDERS[provider] || AI_PROVIDERS.openai: an inherited
prototype member is truthy, so only undefined falls back to the openai
preset. -/
def presetOrDefault : ProvidersLookup → ProvidersLookup
  | ProvidersLookup.undef => ProvidersLookup.preset openaiPreset
  | l => l

/-- preset.envKey: undefined on an inherited prototype member (the
undef case is unreachable after presetOrDefault). -/
def presetEnvKey : ProvidersLookup → Option String
  | ProvidersLookup.preset p => some p.envKey
  | _ => none

/-- preset.baseURL: undefined on an inherited prototype member. -/
def presetBaseURL : ProvidersLookup → Option String
  | ProvidersLookup.preset p => some p.baseURL
  | _ => none

/-- preset.defaultModel: undefined on an inherited prototype member. -/
def presetModel : ProvidersLookup → Option String
  | ProvidersLookup.preset p => some p.defaultModel
  | _ => none

/-- process.env[k] where k may be undefined: an undefined key is
coerced to the property name "undefined". -/
def envIndex (env : String → Option String) (k : Option String) : Option String :=
  env (k.getD "undefined")

/-- The resolved provider configuration.  baseURL and model are
possibly undefined: when the lowercased provider name hits an inherited
Object.prototype member, the preset fields do not exist and no override
replaces them. -/
structure AIConfig where
  provider : String
  apiKey : Option String
  baseURL : Option String
  model : Option String
deriving DecidableEq

/-- getAIConfig of the hook script over an environment mapping: the
provider name defaults to openai and is lowercased; the registry is
indexed with JavaScript bracket-access semantics (providersIndex), and
only a missing property falls back to the openai preset — an inherited
Object.prototype member such as constructor is truthy and is kept,
leaving every preset field undefined; the key is looked up under the
preset envKey (the property name "undefined" when that field does not
exist) with the generic OPENAI_API_KEY as fallback; base URL and model
are the explicit overrides when set and non-empty, else the preset
fields. -/
def getAIConfig (env : String → Option String) : AIConfig :=
  let provider := jsToLower (jsOrString (env "AI_PROVIDER") "openai")
  let preset := presetOrDefault (providersIndex provider)
  { provider := provider
    apiKey := jsOrOpt (envIndex env (presetEnvKey preset)) (env "OPENAI_API_KEY")
    baseURL := jsOrOpt (env "OPENAI_BASE_URL") (presetBaseURL preset)
    model := jsOrOpt (env "OPENAI_MODEL") (presetModel preset) }

/-- The parsed structured response of the remote review call. -/
structure Verdict where
  is_passed : Bool
  reason : String
  message : String
deriving DecidableEq

/-- Configuration fields of the hook that the orchestration reads
(numeric parsing of the environment values is outside the claims and
the record is taken as already resolved). -/
structure ReviewConfig where
  maxDiffSize : Nat
  skipBuild : Bool
  maxRetries : Nat
  retryDelay : Nat
deriving DecidableEq

/-- Oracles for the effectful steps of runAIReview: the staged-diff
fetch (which can throw), the build-command outcome, the remote chat
call per attempt number (the request body, which embeds the truncated
diff, is abstracted away), and the JSON parse of the returned content
(which can throw on a malformed response). -/
structure ReviewWorld where
  diffResult : Except JsError String
  buildOk : Bool
  attempts : Nat → Except JsError String
  parse : String → Except JsError Verdict

/-- Observable outcome of one hook run: the process exit code, the
content written to the commit-message file (none when untouched), the
number of invocations of the remote operation, and the printed lines
that the claims mention. -/
structure HookOutcome where
  exitCode : Nat
  written : Option String
  remoteCalls : Nat
  printed : List String
deriving DecidableEq

/-- Commit-message composition on a passing verdict: the verdict message
itself, and when the reason is truthy and trims non-empty, a blank line,
the advisory header, and the reason with every line prefixed by a hash
and a space. -/
def composeCommitMessage (v : Verdict) : String :=
  if v.reason ≠ "" ∧ jsTrim v.reason ≠ "" then
    v.message ++ "\n\n# --- AI Review 建议 ---\n" ++
      String.mk (joinLines ((splitLines v.reason.data).map fun l => '#' :: ' ' :: l))
  else v.message

/-- runAIReview of the hook script.  Inside the try block: fetch the
staged diff (an empty trim exits zero), filter it against the ignore
rules (an empty trim exits zero), run the build check unless skipped (a
failure exits one), call the remote service through callWithRetry, parse
the structured response, then either write the composed message and
exit zero or print the reason and exit one.  Any error escaping the
fetch, the retry loop or the parse is caught by the surrounding catch,
which prints the allow-commit advisory and exits zero.  The size-cap
step only truncates the request body, which the attempts oracle
abstracts, so it does not appear. -/
def runAIReview (cfg : ReviewConfig) (ignorePatterns : List String)
    (w : ReviewWorld) : HookOutcome :=
  match w.diffResult with
  | Except.error _ =>
    { exitCode := 0, written := none, remoteCalls := 0,
      printed := ["⚠️  跳过 AI Review，允许提交"] }
  | Except.ok diff0 =>
    if jsTrim diff0 = "" then
      { exitCode := 0, written := none, remoteCalls := 0,
        printed := ["ℹ️  没有暂存的更改"] }
    else
      let diff := filterDiff diff0 ignorePatterns
      if jsTrim diff = "" then
        { exitCode := 0, written := none, remoteCalls := 0,
          printed := ["ℹ️  所有更改的文件都在 .reviewignore 中，跳过 AI Review"] }
      else if !cfg.skipBuild && !w.buildOk then
        { exitCode := 1, written := none, remoteCalls := 0,
          printed := ["❌ 构建失败，请修复后重新提交"] }
      else
        match callWithRetry w.attempts cfg.maxRetries cfg.retryDelay with
        | (Except.error _, calls, _) =>
          { exitCode := 0, written := none, remoteCalls := calls,
            printed := ["⚠️  跳过 AI Review，允许提交"] }
        | (Except.ok content, calls, _) =>
          match w.parse content with
          | Except.error _ =>
            { exitCode := 0, written := none, remoteCalls := calls,
              printed := ["⚠️  跳过 AI Review，允许提交"] }
          | Except.ok result =>
            if result.is_passed then
              { exitCode := 0, written := some (composeCommitMessage result),
                remoteCalls := calls,
                printed := ["✅ AI Review 通过",
                            "📝 生成的提交信息: " ++ result.message] }
            else
              { exitCode := 1, written := none, remoteCalls := calls,
                printed := ["❌ AI Review 未通过",
                            "📋 原因: " ++ result.reason,
                            "\n使用 git commit --no-verify 可跳过检查"] }

/-- The commit-source tags that the top-level gate skips. -/
def gateList : List String := ["message", "merge", "squash", "commit"]

/-- The human-readable skip reason per tag, with the tag itself as the
fallback of the reasons lookup. -/
def skipReasonText (s : String) : String :=
  if s = "message" then "使用了 -m 参数"
  else if s = "merge" then "merge 提交"
  else if s = "squash" then "squash 提交"
  else if s = "commit" then "amend 提交"
  else s

/-- The part of the top-level script after the commit-source gate: the
API-key check (a falsy key prints the advisory and exits zero before
any client is built), then runAIReview. -/
def hookAfterGate (env : String → Option String) (cfg : ReviewConfig)
    (ignorePatterns : List String) (w : ReviewWorld) : HookOutcome :=
  if jsTruthyStr (getAIConfig env).apiKey then runAIReview cfg ignorePatterns w
  else
    { exitCode := 0, written := none, remoteCalls := 0,
      printed := ["⚠️  跳过 AI Review，允许提交"] }

/-- Top level of the hook script: the commit-source argument (none when
absent) is tested against the gate list first; a listed tag prints the
skip line and exits zero before the key check, the client construction
and every other step. -/
def hookMain (env : String → Option String) (commitSource : Option String)
    (cfg : ReviewConfig) (ignorePatterns : List String) (w : ReviewWorld) : HookOutcome :=
  match commitSource with
  | some src =>
    if gateList.contains src then
      { exitCode := 0, written := none, remoteCalls := 0,
        printed := ["ℹ️  跳过 AI Review（" ++ skipReasonText src ++ "）"] }
    else hookAfterGate env cfg ignorePatterns w
  | none => hookAfterGate env cfg ignorePatterns w

/-- Reachability of the remote call inside runAIReview: the diff fetch
succeeded with a non-blank diff, filtering left a non-blank diff, and
the build step did not fail. -/
def reachesRemoteCall (cfg : ReviewConfig) (ignorePatterns : List String)
    (w : ReviewWorld) : Prop :=
  ∃ d, w.diffResult = Except.ok d ∧ jsTrim d ≠ "" ∧
    jsTrim (filterDiff d ignorePatterns) ≠ "" ∧
    (cfg.skipBuild = true ∨ w.buildOk = true)

/-- Empty environment: no variable set. -/
def envEmpty : String → Option String := fun _ => none

/-- Environment selecting the deepseek provider with a dedicated key. -/
def envDeep : String → Option String := fun k =>
  if k = "AI_PROVIDER" then some "deepseek"
  else if k = "DEEPSEEK_API_KEY" then some "sk-deep" else none

/-- Environment whose provider name collides with an inherited
Object.prototype member, with no overrides set. -/
def envConstructor : String → Option String := fun k =>
  if k = "AI_PROVIDER" then some "constructor" else none

/-- The default resolved configuration values of the hook. -/
def cfgDefault : ReviewConfig :=
  { maxDiffSize := 15000, skipBuild := false, maxRetries := 3, retryDelay := 1000 }

/-- A staged diff touching only a file inside a dist directory. -/
def distDiff : String := "diff --git a/dist/x.js b/dist/x.js\n+new"

/-- A small staged diff touching one source file. -/
def sampleDiff : String := "diff --git a/a.js b/a.js\n+x"

/-- An unauthorized error as raised by the API client. -/
def e401 : JsError := { status := some 401, errMessage := "Unauthorized" }

/-- A server error, retried as transient. -/
def e500 : JsError := { status := some 500, errMessage := "Internal Server Error" }

/-- A timeout transport error, retried as transient. -/
def eTimeout : JsError := { code := some "ETIMEDOUT", errMessage := "Request timed out" }

/-- An operation failing with the unauthorized error on every attempt. -/
def fnAuth : Nat → Except JsError Nat := fun _ => Except.error e401

/-- An operation failing transiently on attempts one and two and
succeeding on attempt three. -/
def fnTransient : Nat → Except JsError String := fun n =>
  if n = 1 then Except.error e500
  else if n = 2 then Except.error eTimeout
  else Except.ok "content"

/-- A world whose effects are never reached by a gated run. -/
def worldTrivial : ReviewWorld :=
  { diffResult := Except.ok sampleDiff, buildOk := true,
    attempts := fun _ => Except.error eTimeout,
    parse := fun _ => Except.error { errMessage := "unreachable" } }

/-- A world whose staged-diff fetch throws a transport error. -/
def worldDiffErr : ReviewWorld :=
  { diffResult := Except.error { code := some "ECONNREFUSED", errMessage := "connect ECONNREFUSED" },
    buildOk := true,
    attempts := fun _ => Except.ok "response",
    parse := fun _ => Except.ok { is_passed := true, reason := "", message := "ok" } }

/-- A world where the remote verdict passes with an empty message and an
empty reason. -/
def worldEmptyMessage : ReviewWorld :=
  { diffResult := Except.ok sampleDiff, buildOk := true,
    attempts := fun _ => Except.ok "response",
    parse := fun _ => Except.ok { is_passed := true, reason := "", message := "" } }

/-- A world where the remote verdict fails with a reason. -/
def worldRejected : ReviewWorld :=
  { diffResult := Except.ok sampleDiff, buildOk := true,
    attempts := fun _ => Except.ok "response",
    parse := fun _ => Except.ok { is_passed := false, reason := "hardcoded secret detected", message := "" } }

theorem string_data_mk (l : List Char) : (String.mk l).data = l := rfl

theorem splitLinesCore_noNL (s : List Char) :
    '\n' ∉ (splitLinesCore s).1 ∧ ∀ l ∈ (splitLinesCore s).2, '\n' ∉ l := by
  induction s with
  | nil => simp [splitLinesCore]
  | cons c rest ih =>
    rcases ih with ⟨h1, h2⟩
    by_cases hc : c = '\n'
    · subst hc
      simp only [splitLinesCore, if_pos rfl]
      refine ⟨by simp, ?_⟩
      intro l hl
      rcases List.mem_cons.mp hl with rfl | hl
      · exact h1
      · exact h2 l hl
    · simp only [splitLinesCore, if_neg hc]
      refine ⟨?_, h2⟩
      intro hmem
      rcases List.mem_cons.mp hmem with h | h
      · exact hc h.symm
      · exact h1 h

theorem mem_splitLines_noNL {s l : List Char} (h : l ∈ splitLines s) : '\n' ∉ l := by
  rcases splitLinesCore_noNL s with ⟨h1, h2⟩
  rcases List.mem_cons.mp h with rfl | h
  · exact h1
  · exact h2 l h

theorem splitLinesCore_of_noNL {l : List Char} (h : '\n' ∉ l) :
    splitLinesCore l = (l, []) := by
  induction l with
  | nil => rfl
  | cons c rest ih =>
    have hc : ¬ c = '\n' := fun hh => h (by rw [hh]; exact List.mem_cons_self _ _)
    have h' : '\n' ∉ rest := fun hh => h (List.mem_cons_of_mem c hh)
    simp [splitLinesCore, ih h', hc]

theorem splitLinesCore_append_newline {l : List Char} (h : '\n' ∉ l) (s : List Char) :
    splitLinesCore (l ++ '\n' :: s) = (l, splitLines s) := by
  induction l with
  | nil => simp [splitLinesCore, splitLines]
  | cons c rest ih =>
    have hc : ¬ c = '\n' := fun hh => h (by rw [hh]; exact List.mem_cons_self _ _)
    have h' : '\n' ∉ rest := fun hh => h (List.mem_cons_of_mem c hh)
    simp [splitLinesCore, ih h', hc]

theorem splitLines_joinLines :
    ∀ ls : List (List Char), ls ≠ [] → (∀ l ∈ ls, '\n' ∉ l) →
      splitLines (joinLines ls) = ls := by
  intro ls
  induction ls with
  | nil => intro h; exact absurd rfl h
  | cons l rest ih =>
    intro _ hall
    cases rest with
    | nil =>
      have hl : '\n' ∉ l := hall l (List.mem_cons_self _ _)
      simp [joinLines, splitLines, splitLinesCore_of_noNL hl]
    | cons l2 rest2 =>
      have hl : '\n' ∉ l := hall l (List.mem_cons_self _ _)
      have hjoin : joinLines (l :: l2 :: rest2) = l ++ '\n' :: joinLines (l2 :: rest2) := rfl
      rw [hjoin, splitLines, splitLinesCore_append_newline hl]
      show l :: splitLines (joinLines (l2 :: rest2)) = l :: l2 :: rest2
      rw [ih (by simp) fun x hx => hall x (List.mem_cons_of_mem _ hx)]

theorem filterDiffGo_sublist (patterns : List String) :
    ∀ (skip : Bool) (ls : List (List Char)),
      (filterDiffGo patterns skip ls).Sublist ls := by
  intro skip ls
  induction ls generalizing skip with
  | nil => simp [filterDiffGo]
  | cons line rest ih =>
    cases hh : diffHeaderPath line with
    | some p =>
      cases hig : shouldIgnoreFile (String.mk p) patterns with
      | true =>
        simp only [filterDiffGo, hh, hig, if_pos]
        exact (ih true).cons _
      | false =>
        simp only [filterDiffGo, hh, hig]
        exact (ih false).cons₂ _
    | none =>
      cases skip with
      | true =>
        simp only [filterDiffGo, hh, if_pos]
        exact (ih true).cons _
      | false =>
        simp only [filterDiffGo, hh]
        exact (ih false).cons₂ _

theorem filterDiffGo_idem (patterns : List String) :
    ∀ (ls : List (List Char)) (s s' : Bool), s' = false ∨ s = true →
      filterDiffGo patterns s' (filterDiffGo patterns s ls) = filterDiffGo patterns s ls := by
  intro ls
  induction ls with
  | nil => intro s s' _; simp [filterDiffGo]
  | cons line rest ih =>
    intro s s' h
    cases hh : diffHeaderPath line with
    | some p =>
      cases hig : shouldIgnoreFile (String.mk p) patterns with
      | true =>
        simp [filterDiffGo, hh, hig, ih true s' (Or.inr rfl)]
      | false =>
        simp [filterDiffGo, hh, hig, ih false false (Or.inl rfl)]
    | none =>
      cases s with
      | true =>
        simp [filterDiffGo, hh, ih true s' (Or.inr rfl)]
      | false =>
        rcases h with rfl | h
        · simp [filterDiffGo, hh, ih false false (Or.inl rfl)]
        · exact absurd h (by simp)

/-- Claim C5: the changeset filter is idempotent: filtering an already
filtered diff with the same rule set returns it unchanged, for every
diff text and every rule set. -/
theorem claim_C5_filter_idempotent (d : String) (R : List String) :
    filterDiff (filterDiff d R) R = filterDiff d R := by
  by_cases hR : R.length = 0
  · simp [filterDiff, hR]
  · have hmain : filterDiff d R =
        String.mk (joinLines (filterDiffGo R false (splitLines d.data))) := by
      simp [filterDiff, hR]
    rw [hmain, filterDiff, if_neg hR, string_data_mk]
    cases hcase : filterDiffGo R false (splitLines d.data) with
    | nil =>
      have hDH : diffHeaderPath [] = none := by decide
      simp [joinLines, splitLines, splitLinesCore, filterDiffGo, hDH]
    | cons l ls' =>
      have hsub := filterDiffGo_sublist R false (splitLines d.data)
      rw [hcase] at hsub
      have hnoNL : ∀ x ∈ l :: ls', '\n' ∉ x := fun x hx =>
        mem_splitLines_noNL (hsub.subset hx)
      rw [splitLines_joinLines (l :: ls') (by simp) hnoNL]
      rw [show l :: ls' = filterDiffGo R false (splitLines d.data) from hcase.symm]
      rw [filterDiffGo_idem R (splitLines d.data) false false (Or.inl rfl)]

theorem foldl_lastMatch (filePath : String) :
    ∀ (patterns : List String) (acc : Bool),
      patterns.foldl
        (fun ignored pattern =>
          if regexTest (patternToRegex pattern).regex filePath then
            !(patternToRegex pattern).negated
          else ignored) acc
      = match (patterns.filter fun p =>
            regexTest (patternToRegex p).regex filePath).getLast? with
        | some p => !(patternToRegex p).negated
        | none => acc := by
  intro patterns
  induction patterns with
  | nil => intro acc; rfl
  | cons p ps ih =>
    intro acc
    rw [List.foldl_cons, ih]
    by_cases hm : regexTest (patternToRegex p).regex filePath = true
    · have hpos : List.filter (fun q => regexTest (patternToRegex q).regex filePath) (p :: ps)
          = p :: List.filter (fun q => regexTest (patternToRegex q).regex filePath) ps :=
        List.filter_cons_of_pos hm
      rw [hpos]
      cases hps : ps.filter (fun q => regexTest (patternToRegex q).regex filePath) with
      | nil => simp [hm]
      | cons q qs =>
        rw [List.getLast?_cons_cons]
        cases hg : (q :: qs).getLast? with
        | some r => rfl
        | none => exact absurd hg (by simp)
    · have hneg : List.filter (fun q => regexTest (patternToRegex q).regex filePath) (p :: ps)
          = List.filter (fun q => regexTest (patternToRegex q).regex filePath) ps :=
        List.filter_cons_of_neg (by simpa using hm)
      rw [hneg]
      cases (ps.filter fun q => regexTest (patternToRegex q).regex filePath).getLast? with
      | none => simp [hm]
      | some q => rfl

/-- Claim C4: rule evaluation is last-match-wins: for every path and
every ordered rule list the ignored status equals the complement of the
negation flag of the last rule whose matcher accepts the path (false
when no rule matches); concretely, under the rules star-dot-md then
negated README.md, README.md is not ignored while CHANGELOG.md is, and
reversing the two rules makes README.md ignored. -/
theorem claim_C4_last_match_wins :
    (∀ (filePath : String) (patterns : List String),
      shouldIgnoreFile filePath patterns = specLastMatchWins filePath patterns)
    ∧ shouldIgnoreFile "README.md" ["*.md", "!README.md"] = false
    ∧ shouldIgnoreFile "CHANGELOG.md" ["*.md", "!README.md"] = true
    ∧ shouldIgnoreFile "README.md" ["!README.md", "*.md"] = true := by
  refine ⟨?_, by decide, by decide, by decide⟩
  intro filePath patterns
  rw [shouldIgnoreFile, specLastMatchWins, foldl_lastMatch]

/-- Claim C2 (evaluation of the code at the failing input): a pattern
with a trailing slash does NOT match the paths inside a directory of
that name, because the trailing-slash surgery drops two characters
although the slash was never escaped: the pattern dist-slash compiles
to the regex start-or-slash d-i-s slash-or-end, which rejects
dist/x.js and accepts dis/x.js instead; consequently a staged diff
touching only files under dist survives the filter unchanged and the
remote call is made, contrary to the claim. -/
theorem claim_C2_trailing_slash_eval :
    (patternToRegex "dist/").regex = "(^|/)dis(/|$)" ∧
    shouldIgnoreFile "dist/x.js" ["dist/"] = false ∧
    shouldIgnoreFile "dist/deep/y.js" ["dist/"] = false ∧
    shouldIgnoreFile "dis/x.js" ["dist/"] = true ∧
    filterDiff distDiff ["dist/"] = distDiff ∧
    jsTrim (filterDiff distDiff ["dist/"]) ≠ "" := by decide

/-- Claim C3 (evaluation of the code at the failing input): a pattern
with a leading slash is not anchored to the start of the path as
claimed: the leading-slash surgery drops two characters although the
slash occupies only one, so the pattern slash-dist compiles to the
regex caret i-s-t end-or-slash, which rejects dist/x.js (and also
src/dist/x.js) while accepting ist/x.js. -/
theorem claim_C3_leading_slash_eval :
    (patternToRegex "/dist").regex = "^ist($|/)" ∧
    shouldIgnoreFile "dist/x.js" ["/dist"] = false ∧
    shouldIgnoreFile "src/dist/x.js" ["/dist"] = false ∧
    shouldIgnoreFile "ist/x.js" ["/dist"] = true := by decide

theorem callWithRetryAux_calls_le {α : Type} (fn : Nat → Except JsError α)
    (retries delay : Nat) :
    ∀ (fuel attempt : Nat) (le : Option JsError) (calls : Nat) (waits : List Nat),
      (callWithRetryAux fn retries delay fuel attempt le calls waits).2.1 ≤ calls + fuel := by
  intro fuel
  induction fuel with
  | zero => intro attempt le calls waits; simp [callWithRetryAux]
  | succ n ih =>
    intro attempt le calls waits
    simp only [callWithRetryAux]
    cases hfn : fn attempt with
    | ok v => simp
    | error e =>
      by_cases h1 : e.status = some 401 ∨ e.status = some 403
      · simp only [if_pos h1]; simp
      · simp only [if_neg h1]
        by_cases h2 : e.status = some 429
        · simp only [if_pos h2]
          have := ih (attempt + 1) (some e) (calls + 1) (waits ++ [delay * attempt * 2])
          omega
        · simp only [if_neg h2]
          by_cases h3 : attempt < retries
          · simp only [if_pos h3]
            have := ih (attempt + 1) (some e) (calls + 1) (waits ++ [delay * attempt])
            omega
          · simp only [if_neg h3]
            have := ih (attempt + 1) (some e) (calls + 1) waits
            omega

/-- Claim C6: an operation that raises an authorization-class error
(status 401 or 403) on attempt one is raised immediately with exactly
one invocation and no waits, for every remaining budget of at least one
attempt; and for every operation and every budget the operation is
never invoked more than the budget many times. -/
theorem claim_C6_fatal_no_retry :
    (∀ (α : Type) (fn : Nat → Except JsError α) (e : JsError) (retries delay : Nat),
      1 ≤ retries → fn 1 = Except.error e →
      (e.status = some 401 ∨ e.status = some 403) →
      callWithRetry fn retries delay = (Except.error (some e), 1, []))
    ∧ (∀ (α : Type) (fn : Nat → Except JsError α) (retries delay : Nat),
      (callWithRetry fn retries delay).2.1 ≤ retries) := by
  constructor
  · intro α fn e retries delay hr hfn hst
    obtain ⟨n, rfl⟩ : ∃ n, retries = n + 1 := ⟨retries - 1, by omega⟩
    simp only [callWithRetry, callWithRetryAux]
    rw [hfn]
    simp [hst]
  · intro α fn retries delay
    have h := callWithRetryAux_calls_le fn retries delay retries 1 none 0 []
    simpa [callWithRetry] using h

/-- Witness for claim C6 at a concrete always-unauthorized operation
with a budget of three attempts. -/
theorem claim_C6_witness :
    (1 ≤ 3 ∧ fnAuth 1 = Except.error e401 ∧
      (e401.status = some 401 ∨ e401.status = some 403)) ∧
    callWithRetry fnAuth 3 1000 = (Except.error (some e401), 1, []) :=
  ⟨⟨by decide, rfl, Or.inl rfl⟩,
    claim_C6_fatal_no_retry.1 Nat fnAuth e401 3 1000 (by decide) rfl (Or.inl rfl)⟩

theorem callWithRetryAux_step_transient {α : Type} (fn : Nat → Except JsError α)
    (retries delay fuel attempt : Nat) (le : Option JsError) (calls : Nat)
    (waits : List Nat) (e : JsError) (hfn : fn attempt = Except.error e)
    (hA : e.status ≠ some 401) (hB : e.status ≠ some 403)
    (hC : e.status ≠ some 429) (hlt : attempt < retries) :
    callWithRetryAux fn retries delay (fuel + 1) attempt le calls waits =
      callWithRetryAux fn retries delay fuel (attempt + 1) (some e) (calls + 1)
        (waits ++ [delay * attempt]) := by
  simp only [callWithRetryAux]
  rw [hfn]
  simp only [if_neg (show ¬(e.status = some 401 ∨ e.status = some 403) by tauto),
    if_neg hC, if_pos hlt]

theorem callWithRetryAux_step_ok {α : Type} (fn : Nat → Except JsError α)
    (retries delay fuel attempt : Nat) (le : Option JsError) (calls : Nat)
    (waits : List Nat) (v : α) (hfn : fn attempt = Except.ok v) :
    callWithRetryAux fn retries delay (fuel + 1) attempt le calls waits =
      (Except.ok v, calls + 1, waits) := by
  simp only [callWithRetryAux]
  rw [hfn]

/-- Claim C7: an operation failing transiently (status neither 401, 403
nor 429) on attempts one and two and succeeding on attempt three, run
with a budget of three and a positive base delay, returns the success
value after exactly three invocations, the waits being the base delay
times the attempt number, so the second wait exceeds the first. -/
theorem claim_C7_transient_retry (α : Type) (fn : Nat → Except JsError α)
    (eA eB : JsError) (v : α) (d : Nat)
    (h1 : fn 1 = Except.error eA) (h2 : fn 2 = Except.error eB)
    (h3 : fn 3 = Except.ok v)
    (hA1 : eA.status ≠ some 401) (hA3 : eA.status ≠ some 403)
    (hA9 : eA.status ≠ some 429)
    (hB1 : eB.status ≠ some 401) (hB3 : eB.status ≠ some 403)
    (hB9 : eB.status ≠ some 429) (hd : 0 < d) :
    callWithRetry fn 3 d = (Except.ok v, 3, [d * 1, d * 2]) ∧ d * 1 < d * 2 := by
  constructor
  · calc callWithRetry fn 3 d
        = callWithRetryAux fn 3 d (1 + 1 + 1) 1 none 0 [] := rfl
      _ = callWithRetryAux fn 3 d (1 + 1) 2 (some eA) (0 + 1) ([] ++ [d * 1]) :=
          callWithRetryAux_step_transient fn 3 d (1 + 1) 1 none 0 [] eA h1
            hA1 hA3 hA9 (by norm_num)
      _ = callWithRetryAux fn 3 d 1 3 (some eB) (0 + 1 + 1)
            (([] ++ [d * 1]) ++ [d * 2]) :=
          callWithRetryAux_step_transient fn 3 d 1 2 (some eA) (0 + 1) ([] ++ [d * 1])
            eB h2 hB1 hB3 hB9 (by norm_num)
      _ = (Except.ok v, 0 + 1 + 1 + 1, ([] ++ [d * 1]) ++ [d * 2]) :=
          callWithRetryAux_step_ok fn 3 d 0 3 (some eB) (0 + 1 + 1)
            (([] ++ [d * 1]) ++ [d * 2]) v h3
      _ = (Except.ok v, 3, [d * 1, d * 2]) := by simp
  · omega

/-- Witness for claim C7 at a concrete operation failing with a server
error, then a timeout, then succeeding, with base delay seven. -/
theorem claim_C7_witness :
    (fnTransient 1 = Except.error e500 ∧ fnTransient 2 = Except.error eTimeout ∧
      fnTransient 3 = Except.ok "content" ∧ e500.status ≠ some 401 ∧
      e500.status ≠ some 403 ∧ e500.status ≠ some 429 ∧
      eTimeout.status ≠ some 401 ∧ eTimeout.status ≠ some 403 ∧
      eTimeout.status ≠ some 429 ∧ 0 < 7) ∧
    callWithRetry fnTransient 3 7 = (Except.ok "content", 3, [7 * 1, 7 * 2]) ∧
    7 * 1 < 7 * 2 :=
  ⟨⟨rfl, rfl, rfl, by decide, by decide, by decide, by decide, by decide, by decide,
      by decide⟩,
    claim_C7_transient_retry String fnTransient e500 eTimeout "content" 7
      rfl rfl rfl (by decide) (by decide) (by decide) (by decide) (by decide)
      (by decide) (by decide)⟩

/-- Claim C1: every commit-source tag in the gate list (explicit
message, merge, squash, amend-or-reuse) makes the hook terminate with
exit code zero before any remote call and without writing the
commit-message file, for every environment, configuration, rule set and
world of effects. -/
theorem claim_C1_gate_skips (env : String → Option String) (src : String)
    (cfg : ReviewConfig) (pats : List String) (w : ReviewWorld)
    (h : src ∈ gateList) :
    (hookMain env (some src) cfg pats w).exitCode = 0 ∧
    (hookMain env (some src) cfg pats w).written = none ∧
    (hookMain env (some src) cfg pats w).remoteCalls = 0 := by
  fin_cases h <;> simp [hookMain, gateList]

/-- Witness for claim C1 at the merge tag with the empty environment
and a world whose effects would all be observable. -/
theorem claim_C1_witness :
    "merge" ∈ gateList ∧
    ((hookMain envEmpty (some "merge") cfgDefault [] worldTrivial).exitCode = 0 ∧
     (hookMain envEmpty (some "merge") cfgDefault [] worldTrivial).written = none ∧
     (hookMain envEmpty (some "merge") cfgDefault [] worldTrivial).remoteCalls = 0) :=
  ⟨by decide,
    claim_C1_gate_skips envEmpty "merge" cfgDefault [] worldTrivial (by decide)⟩

theorem providersIndex_protoMember (name : String)
    (h : name ∈ objectProtoProps) :
    providersIndex name = ProvidersLookup.protoMember := by
  have hd : name = "constructor" ∨ name = "hasOwnProperty" ∨
      name = "isPrototypeOf" ∨ name = "propertyIsEnumerable" ∨
      name = "toLocaleString" ∨ name = "toString" ∨ name = "valueOf" ∨
      name = "__defineGetter__" ∨ name = "__defineSetter__" ∨
      name = "__lookupGetter__" ∨ name = "__lookupSetter__" ∨
      name = "__proto__" := by
    simpa [objectProtoProps] using h
  have hlk : AI_PROVIDERS.lookup name = none := by
    rcases hd with rfl | rfl | rfl | rfl | rfl | rfl | rfl | rfl | rfl | rfl | rfl | rfl <;>
      decide
  simp [providersIndex, hlk, h]

/-- Counterexample to claim C8: the provider name constructor is not a
recognized provider, yet JavaScript bracket access finds the inherited
constructor member of Object.prototype, which is truthy, so the
or-fallback to the openai preset is skipped; the members envKey,
baseURL and defaultModel do not exist on it, and with no overrides set
the resolved baseURL and model are undefined rather than the default
preset values the claim promises. -/
theorem claim_C8_counterexample :
    (getAIConfig envConstructor).baseURL = none ∧
    (getAIConfig envConstructor).model = none ∧
    (getAIConfig envConstructor).baseURL ≠ some openaiPreset.baseURL ∧
    (getAIConfig envConstructor).model ≠ some openaiPreset.defaultModel := by
  decide

/-- Claim C8 as amended: provider resolution follows the precedence
explicit override over provider preset over openai-compatible default:
the deepseek provider with no base-URL override resolves to the
deepseek preset URL; the provider name is read case-insensitively
(DeepSeek resolves like deepseek); a non-empty explicit base-URL
override wins for every provider; an unrecognized ASCII provider name
resolves to the openai preset UNLESS its lowercasing is an inherited
Object.prototype member name, in which case the truthy inherited
object is kept as the preset and baseURL and model resolve to
undefined when no override is set; the credential is looked up under
the provider-specific key first and falls back to the generic
OPENAI_API_KEY. -/
theorem claim_C8_provider_resolution :
    (∀ env : String → Option String, env "AI_PROVIDER" = some "deepseek" →
      env "OPENAI_BASE_URL" = none →
      (getAIConfig env).baseURL = some "https://api.deepseek.com")
    ∧ (∀ env : String → Option String, env "AI_PROVIDER" = some "DeepSeek" →
      env "OPENAI_BASE_URL" = none →
      (getAIConfig env).provider = "deepseek" ∧
      (getAIConfig env).baseURL = some "https://api.deepseek.com")
    ∧ (∀ (env : String → Option String) (u : String),
      env "OPENAI_BASE_URL" = some u → u ≠ "" →
      (getAIConfig env).baseURL = some u)
    ∧ (∀ (env : String → Option String) (s : String), env "AI_PROVIDER" = some s →
      isAsciiString s = true →
      jsToLower s ≠ "openai" → jsToLower s ≠ "deepseek" →
      jsToLower s ∉ objectProtoProps →
      env "OPENAI_BASE_URL" = none → env "OPENAI_MODEL" = none →
      (getAIConfig env).baseURL = some openaiPreset.baseURL ∧
      (getAIConfig env).model = some openaiPreset.defaultModel)
    ∧ (∀ (env : String → Option String) (s : String), env "AI_PROVIDER" = some s →
      jsToLower s ∈ objectProtoProps →
      env "OPENAI_BASE_URL" = none → env "OPENAI_MODEL" = none →
      (getAIConfig env).baseURL = none ∧ (getAIConfig env).model = none)
    ∧ (∀ (env : String → Option String) (k : String),
      env "AI_PROVIDER" = some "deepseek" → env "DEEPSEEK_API_KEY" = some k →
      k ≠ "" → (getAIConfig env).apiKey = some k)
    ∧ (∀ (env : String → Option String) (k : String),
      env "AI_PROVIDER" = some "deepseek" → env "DEEPSEEK_API_KEY" = none →
      env "OPENAI_API_KEY" = some k → (getAIConfig env).apiKey = some k) := by
  have hdidx : providersIndex "deepseek" = ProvidersLookup.preset deepseekPreset := by
    decide
  have hjl : jsToLower "deepseek" = "deepseek" := by decide
  refine ⟨?_, ?_, ?_, ?_, ?_, ?_, ?_⟩
  · intro env h1 h2
    simp [getAIConfig, h1, h2, hjl, hdidx, presetOrDefault, presetBaseURL,
      deepseekPreset, jsOrString, jsOrOpt]
  · intro env h1 h2
    have hlow : jsToLower "DeepSeek" = "deepseek" := by decide
    constructor
    · simp [getAIConfig, h1, hlow, jsOrString]
    · simp [getAIConfig, h1, h2, hlow, hdidx, presetOrDefault, presetBaseURL,
        deepseekPreset, jsOrString, jsOrOpt]
  · intro env u h1 hu
    simp [getAIConfig, jsOrOpt, h1, hu]
  · intro env s h1 hascii hno hnd hnp h2 h3
    by_cases hs : s = ""
    · subst hs
      have hjlo : jsToLower "openai" = "openai" := by decide
      have hop : providersIndex "openai" = ProvidersLookup.preset openaiPreset := by
        decide
      constructor
      · simp [getAIConfig, h1, h2, hjlo, hop, presetOrDefault, presetBaseURL,
          jsOrString, jsOrOpt]
      · simp [getAIConfig, h1, h3, hjlo, hop, presetOrDefault, presetModel,
          jsOrString, jsOrOpt]
    · have hb1 : (jsToLower s == "openai") = false := beq_eq_false_iff_ne.mpr hno
      have hb2 : (jsToLower s == "deepseek") = false := beq_eq_false_iff_ne.mpr hnd
      have hlk : AI_PROVIDERS.lookup (jsToLower s) = none := by
        simp [AI_PROVIDERS, List.lookup, hb1, hb2]
      have hidx : providersIndex (jsToLower s) = ProvidersLookup.undef := by
        simp [providersIndex, hlk, hnp]
      constructor
      · simp [getAIConfig, h1, h2, hs, hidx, presetOrDefault, presetBaseURL,
          jsOrString, jsOrOpt]
      · simp [getAIConfig, h1, h3, hs, hidx, presetOrDefault, presetModel,
          jsOrString, jsOrOpt]
  · intro env s h1 hmem h2 h3
    by_cases hs : s = ""
    · subst hs
      exact absurd hmem (by decide)
    · have hidx := providersIndex_protoMember (jsToLower s) hmem
      constructor
      · simp [getAIConfig, h1, h2, hs, hidx, presetOrDefault, presetBaseURL,
          jsOrString, jsOrOpt]
      · simp [getAIConfig, h1, h3, hs, hidx, presetOrDefault, presetModel,
          jsOrString, jsOrOpt]
  · intro env k h1 h2 hk
    simp [getAIConfig, jsOrOpt, envIndex, h1, h2, hk, hjl, hdidx, presetOrDefault,
      presetEnvKey, deepseekPreset, jsOrString]
  · intro env k h1 h2 h3
    simp [getAIConfig, jsOrOpt, envIndex, h1, h2, h3, hjl, hdidx, presetOrDefault,
      presetEnvKey, deepseekPreset, jsOrString]

/-- Witness for the amended claim C8 at a concrete environment
selecting deepseek with a dedicated key and no overrides. -/
theorem claim_C8_witness :
    envDeep "AI_PROVIDER" = some "deepseek" ∧ envDeep "OPENAI_BASE_URL" = none ∧
    (getAIConfig envDeep).baseURL = some "https://api.deepseek.com" :=
  ⟨by decide, by decide,
    claim_C8_provider_resolution.1 envDeep (by decide) (by decide)⟩

theorem runAIReview_diffError (cfg : ReviewConfig) (pats : List String)
    (w : ReviewWorld) (e : JsError) (h : w.diffResult = Except.error e) :
    runAIReview cfg pats w =
      { exitCode := 0, written := none, remoteCalls := 0,
        printed := ["⚠️  跳过 AI Review，允许提交"] } := by
  simp [runAIReview, h]


theorem runAIReview_retryError (cfg : ReviewConfig) (pats : List String)
    (w : ReviewWorld) (d : String) (e : Option JsError) (calls : Nat)
    (waits : List Nat)
    (hd : w.diffResult = Except.ok d) (h1 : jsTrim d ≠ "")
    (h2 : jsTrim (filterDiff d pats) ≠ "")
    (h3 : cfg.skipBuild = true ∨ w.buildOk = true)
    (hcall : callWithRetry w.attempts cfg.maxRetries cfg.retryDelay
      = (Except.error e, calls, waits)) :
    runAIReview cfg pats w =
      { exitCode := 0, written := none, remoteCalls := calls,
        printed := ["⚠️  跳过 AI Review，允许提交"] } := by
  have hb : (!cfg.skipBuild && !w.buildOk) = false := by
    rcases h3 with h | h <;> simp [h]
  simp [runAIReview, hd, h1, h2, hb, hcall]

theorem runAIReview_parseError (cfg : ReviewConfig) (pats : List String)
    (w : ReviewWorld) (d content : String) (e : JsError) (calls : Nat)
    (waits : List Nat)
    (hd : w.diffResult = Except.ok d) (h1 : jsTrim d ≠ "")
    (h2 : jsTrim (filterDiff d pats) ≠ "")
    (h3 : cfg.skipBuild = true ∨ w.buildOk = true)
    (hcall : callWithRetry w.attempts cfg.maxRetries cfg.retryDelay
      = (Except.ok content, calls, waits))
    (hp : w.parse content = Except.error e) :
    runAIReview cfg pats w =
      { exitCode := 0, written := none, remoteCalls := calls,
        printed := ["⚠️  跳过 AI Review，允许提交"] } := by
  have hb : (!cfg.skipBuild && !w.buildOk) = false := by
    rcases h3 with h | h <;> simp [h]
  simp [runAIReview, hd, h1, h2, hb, hcall, hp]

theorem runAIReview_pass (cfg : ReviewConfig) (pats : List String)
    (w : ReviewWorld) (d content : String) (v : Verdict) (calls : Nat)
    (waits : List Nat)
    (hd : w.diffResult = Except.ok d) (h1 : jsTrim d ≠ "")
    (h2 : jsTrim (filterDiff d pats) ≠ "")
    (h3 : cfg.skipBuild = true ∨ w.buildOk = true)
    (hcall : callWithRetry w.attempts cfg.maxRetries cfg.retryDelay
      = (Except.ok content, calls, waits))
    (hp : w.parse content = Except.ok v) (hip : v.is_passed = true) :
    runAIReview cfg pats w =
      { exitCode := 0, written := some (composeCommitMessage v),
        remoteCalls := calls,
        printed := ["✅ AI Review 通过", "📝 生成的提交信息: " ++ v.message] } := by
  have hb : (!cfg.skipBuild && !w.buildOk) = false := by
    rcases h3 with h | h <;> simp [h]
  simp [runAIReview, hd, h1, h2, hb, hcall, hp, hip]

theorem runAIReview_rejected (cfg : ReviewConfig) (pats : List String)
    (w : ReviewWorld) (d content : String) (v : Verdict) (calls : Nat)
    (waits : List Nat)
    (hd : w.diffResult = Except.ok d) (h1 : jsTrim d ≠ "")
    (h2 : jsTrim (filterDiff d pats) ≠ "")
    (h3 : cfg.skipBuild = true ∨ w.buildOk = true)
    (hcall : callWithRetry w.attempts cfg.maxRetries cfg.retryDelay
      = (Except.ok content, calls, waits))
    (hp : w.parse content = Except.ok v) (hip : v.is_passed = false) :
    runAIReview cfg pats w =
      { exitCode := 1, written := none, remoteCalls := calls,
        printed := ["❌ AI Review 未通过", "📋 原因: " ++ v.reason,
                    "\n使用 git commit --no-verify 可跳过检查"] } := by
  have hb : (!cfg.skipBuild && !w.buildOk) = false := by
    rcases h3 with h | h <;> simp [h]
  simp [runAIReview, hd, h1, h2, hb, hcall, hp, hip]

/-- Claim C10: every exception escaping the orchestration steps after
the gate and credential checks (diff fetch, remote call through the
retry loop, response parsing) is caught at the top level, the
commit-message file stays untouched, and the process exits zero; a
non-zero exit arises only from an explicit build-check failure or an
explicit negative verdict. -/
theorem claim_C10_fail_open (cfg : ReviewConfig) (pats : List String)
    (w : ReviewWorld) :
    ((∃ e, w.diffResult = Except.error e) →
      (runAIReview cfg pats w).exitCode = 0 ∧ (runAIReview cfg pats w).written = none)
    ∧ (reachesRemoteCall cfg pats w →
      (∃ e, (callWithRetry w.attempts cfg.maxRetries cfg.retryDelay).1 = Except.error e) →
      (runAIReview cfg pats w).exitCode = 0 ∧ (runAIReview cfg pats w).written = none)
    ∧ (reachesRemoteCall cfg pats w →
      ∀ content, (callWithRetry w.attempts cfg.maxRetries cfg.retryDelay).1 = Except.ok content →
      (∃ e, w.parse content = Except.error e) →
      (runAIReview cfg pats w).exitCode = 0 ∧ (runAIReview cfg pats w).written = none)
    ∧ ((runAIReview cfg pats w).exitCode ≠ 0 →
      (cfg.skipBuild = false ∧ w.buildOk = false) ∨
      (∃ content v,
        (callWithRetry w.attempts cfg.maxRetries cfg.retryDelay).1 = Except.ok content ∧
        w.parse content = Except.ok v ∧ v.is_passed = false)) := by
  refine ⟨?_, ?_, ?_, ?_⟩
  · rintro ⟨e, he⟩
    rw [runAIReview_diffError cfg pats w e he]
    exact ⟨rfl, rfl⟩
  · rintro ⟨d, hd, h1, h2, h3⟩ ⟨e, hr⟩
    rcases hcall : callWithRetry w.attempts cfg.maxRetries cfg.retryDelay with ⟨res, calls, waits⟩
    have hres : res = Except.error e := by rw [hcall] at hr; exact hr
    subst hres
    rw [runAIReview_retryError cfg pats w d e calls waits hd h1 h2 h3 hcall]
    exact ⟨rfl, rfl⟩
  · rintro ⟨d, hd, h1, h2, h3⟩ content hok ⟨e, hp⟩
    rcases hcall : callWithRetry w.attempts cfg.maxRetries cfg.retryDelay with ⟨res, calls, waits⟩
    have hres : res = Except.ok content := by rw [hcall] at hok; exact hok
    subst hres
    rw [runAIReview_parseError cfg pats w d content e calls waits hd h1 h2 h3 hcall hp]
    exact ⟨rfl, rfl⟩
  · intro hne
    cases hd : w.diffResult with
    | error e =>
      rw [runAIReview_diffError cfg pats w e hd] at hne
      exact absurd rfl hne
    | ok d =>
      by_cases h1 : jsTrim d = ""
      · have hout : runAIReview cfg pats w =
            { exitCode := 0, written := none, remoteCalls := 0,
              printed := ["ℹ️  没有暂存的更改"] } := by
          simp [runAIReview, hd, h1]
        rw [hout] at hne
        exact absurd rfl hne
      · by_cases h2 : jsTrim (filterDiff d pats) = ""
        · have hout : runAIReview cfg pats w =
              { exitCode := 0, written := none, remoteCalls := 0,
                printed := ["ℹ️  所有更改的文件都在 .reviewignore 中，跳过 AI Review"] } := by
            simp [runAIReview, hd, h1, h2]
          rw [hout] at hne
          exact absurd rfl hne
        · by_cases h3 : cfg.skipBuild = true ∨ w.buildOk = true
          · rcases hcall : callWithRetry w.attempts cfg.maxRetries cfg.retryDelay with
              ⟨res, calls, waits⟩
            cases res with
            | error e =>
              rw [runAIReview_retryError cfg pats w d e calls waits hd h1 h2 h3 hcall] at hne
              exact absurd rfl hne
            | ok content =>
              cases hp : w.parse content with
              | error e =>
                rw [runAIReview_parseError cfg pats w d content e calls waits
                  hd h1 h2 h3 hcall hp] at hne
                exact absurd rfl hne
              | ok result =>
                cases hip : result.is_passed with
                | true =>
                  rw [runAIReview_pass cfg pats w d content result calls waits
                    hd h1 h2 h3 hcall hp hip] at hne
                  exact absurd rfl hne
                | false => exact Or.inr ⟨content, result, rfl, hp, hip⟩
          · left
            constructor
            · cases hsb : cfg.skipBuild with
              | false => rfl
              | true => exact absurd (Or.inl hsb) h3
            · cases hbo : w.buildOk with
              | false => rfl
              | true => exact absurd (Or.inr hbo) h3

/-- Witness for claim C10 at a world whose diff fetch throws a
transport error: the run exits zero without writing. -/
theorem claim_C10_witness :
    (∃ e, worldDiffErr.diffResult = Except.error e) ∧
    (runAIReview cfgDefault [] worldDiffErr).exitCode = 0 ∧
    (runAIReview cfgDefault [] worldDiffErr).written = none :=
  ⟨⟨_, rfl⟩, (claim_C10_fail_open cfgDefault [] worldDiffErr).1 ⟨_, rfl⟩⟩

/-- Counterexample to claim C9: a parsed verdict that passes with an
empty message makes the hook write the empty string to the
commit-message file and exit zero; the written message is therefore not
non-empty and does not match the conventional-commit shape — the code
performs no validation of the verdict message. -/
theorem claim_C9_counterexample :
    (runAIReview cfgDefault [] worldEmptyMessage).written = some "" ∧
    (runAIReview cfgDefault [] worldEmptyMessage).exitCode = 0 := by
  decide

/-- Claim C9 as amended: when the parsed verdict passes, the hook
writes exactly the verdict message (with the reason appended as a
commented block when the reason trims non-empty) and exits zero,
without validating that the message is non-empty or
conventional-commit shaped; when the verdict fails, the file is never
written, the process exits non-zero, and the reason is printed. -/
theorem claim_C9_verdict_handling (cfg : ReviewConfig) (pats : List String)
    (w : ReviewWorld) (d content : String) (v : Verdict)
    (hd : w.diffResult = Except.ok d) (h1 : jsTrim d ≠ "")
    (h2 : jsTrim (filterDiff d pats) ≠ "")
    (h3 : cfg.skipBuild = true ∨ w.buildOk = true)
    (hr : (callWithRetry w.attempts cfg.maxRetries cfg.retryDelay).1 = Except.ok content)
    (hp : w.parse content = Except.ok v) :
    (v.is_passed = true →
      (runAIReview cfg pats w).exitCode = 0 ∧
      (runAIReview cfg pats w).written = some (composeCommitMessage v))
    ∧ (v.is_passed = false →
      (runAIReview cfg pats w).exitCode = 1 ∧
      (runAIReview cfg pats w).written = none ∧
      ("📋 原因: " ++ v.reason) ∈ (runAIReview cfg pats w).printed) := by
  rcases hcall : callWithRetry w.attempts cfg.maxRetries cfg.retryDelay with ⟨res, calls, waits⟩
  have hres : res = Except.ok content := by rw [hcall] at hr; exact hr
  subst hres
  constructor
  · intro hip
    rw [runAIReview_pass cfg pats w d content v calls waits hd h1 h2 h3 hcall hp hip]
    exact ⟨rfl, rfl⟩
  · intro hip
    rw [runAIReview_rejected cfg pats w d content v calls waits hd h1 h2 h3 hcall hp hip]
    exact ⟨rfl, rfl, by simp⟩

/-- Witness for the amended claim C9 at a world whose verdict fails
with a reason: exit one, file untouched, reason printed. -/
theorem claim_C9_witness :
    (runAIReview cfgDefault [] worldRejected).exitCode = 1 ∧
    (runAIReview cfgDefault [] worldRejected).written = none ∧
    ("📋 原因: " ++ "hardcoded secret detected") ∈
      (runAIReview cfgDefault [] worldRejected).printed :=
  (claim_C9_verdict_handling cfgDefault [] worldRejected sampleDiff "response"
    { is_passed := false, reason := "hardcoded secret detected", message := "" }
    rfl (by decide) (by decide) (Or.inr rfl) rfl rfl).2 rfl
